import Mathlib

/-!
Shallow embedding of the game engine in `src/App.tsx` (a timed
visual-discrimination game: find the tile whose lightness differs).

The engine's state lives in React `useState` hooks; we collect those hooks
into a `GameState` record and turn each handler (`generateLevel`,
`startGame`, `handleBlockClick`, the timer effect's interval callback) into
a pure state transformer.  JavaScript numbers are modelled as follows:
integer-valued state (score, time) as `ℕ`/`ℤ`, color components and the
difficulty delta as `ℝ` (the difficulty involves `Math.log2`), and the
outcomes of `Math.random()` (always values in `[0,1)`, and always 64-bit
floats, hence rational) as `ℚ`.  Randomness is made explicit: every
function that calls `Math.random()` takes the outcomes of those calls as
extra arguments.
-/

/-- The `ColorHSL` interface of the source: hue, saturation, lightness. -/
@[ext]
structure ColorHSL where
  h : ℝ
  s : ℝ
  l : ℝ

/-- Constant `GRID_SIZE = 5` from the source. -/
def GRID_SIZE : ℕ := 5

/-- Constant `INITIAL_TIME = 60` from the source. -/
def INITIAL_TIME : ℤ := 60

/-- Constant `INITIAL_DIFF = 20` from the source (initial lightness difference). -/
def INITIAL_DIFF : ℝ := 20

/-- Constant `MIN_DIFF = 1.5` from the source (minimum lightness difference). -/
def MIN_DIFF : ℝ := 1.5

/-- The outcomes of the five `Math.random()` calls consumed by one level
generation: three for the base color, one for the target index, one for the
shift direction. -/
structure Draws where
  rh : ℚ
  rs : ℚ
  rl : ℚ
  rIdx : ℚ
  rDir : ℚ

/-- The set of values `Math.random()` can return: the interval `[0,1)`. -/
def unitRange (r : ℚ) : Prop := 0 ≤ r ∧ r < 1

/-- All five recorded random outcomes lie in `[0,1)`. -/
def Draws.Valid (ρ : Draws) : Prop :=
  unitRange ρ.rh ∧ unitRange ρ.rs ∧ unitRange ρ.rl ∧ unitRange ρ.rIdx ∧ unitRange ρ.rDir

/-- `generateColor` from the source:
`h = floor(r·360)`, `s = 40 + floor(r·40)`, `l = 30 + floor(r·40)`. -/
def generateColor (r1 r2 r3 : ℚ) : ColorHSL where
  h := ((⌊r1 * 360⌋ : ℤ) : ℝ)
  s := ((40 + ⌊r2 * 40⌋ : ℤ) : ℝ)
  l := ((30 + ⌊r3 * 40⌋ : ℤ) : ℝ)

/-- `getTargetColor` from the source: `direction = Math.random() > 0.5 ? 1 : -1`,
lightness `Math.max(0, Math.min(100, base.l + diff * direction))`; hue and
saturation are spread from `base` unchanged. -/
noncomputable def getTargetColor (base : ColorHSL) (diff : ℝ) (rDir : ℚ) : ColorHSL where
  h := base.h
  s := base.s
  l := max 0 (min 100 (base.l + diff * (if (1 / 2 : ℚ) < rDir then 1 else -1)))

/-- The new difficulty computed inline in `generateLevel`:
`Math.max(MIN_DIFF, INITIAL_DIFF - Math.log2(currentScore + 1) * 3.5)`.
(The spec calls this function `nextDelta`.) -/
noncomputable def nextDelta (currentScore : ℕ) : ℝ :=
  max MIN_DIFF (INITIAL_DIFF - Real.logb 2 ((currentScore : ℝ) + 1) * 3.5)

/-- The target index drawn in `generateLevel`:
`Math.floor(Math.random() * (GRID_SIZE * GRID_SIZE))`. -/
def targetIdxOf (rIdx : ℚ) : ℕ :=
  (⌊rIdx * ((GRID_SIZE * GRID_SIZE : ℕ) : ℚ)⌋).toNat

/-- The grid built inside `generateLevel`: `GRID_SIZE * GRID_SIZE` copies of
the base color, with the cell at the target index overwritten by
`getTargetColor baseColor newDiff`. -/
noncomputable def buildGrid (baseColor : ColorHSL) (newDiff : ℝ) (targetIdx : ℕ) (rDir : ℚ) :
    List ColorHSL :=
  (List.replicate (GRID_SIZE * GRID_SIZE) baseColor).set targetIdx
    (getTargetColor baseColor newDiff rDir)

/-- The engine-relevant React state of the `App` component, one field per
`useState` hook (the locale hook is presentation-only and excluded). -/
structure GameState where
  score : ℕ
  timeLeft : ℤ
  isActive : Bool
  isGameOver : Bool
  grid : List ColorHSL
  targetIndex : ℤ
  difficulty : ℝ
  lastDiff : ℝ

/-- The spec's three-valued activity state, read off the two booleans the
way the render dispatch does: the game-over screen when `isGameOver`, the
game grid when `isActive`, the start screen otherwise. -/
inductive ActivityState where
  | idle
  | active
  | over
deriving DecidableEq

/-- Map a `GameState` to the spec's `activityState` observable. -/
def GameState.activityState (st : GameState) : ActivityState :=
  if st.isGameOver then ActivityState.over
  else if st.isActive then ActivityState.active
  else ActivityState.idle

/-- The initial hook values: score 0, 60 seconds, inactive, not game over,
empty grid, target index `-1`, difficulty `INITIAL_DIFF`, lastDiff 0. -/
def initialState : GameState where
  score := 0
  timeLeft := INITIAL_TIME
  isActive := false
  isGameOver := false
  grid := []
  targetIndex := -1
  difficulty := INITIAL_DIFF
  lastDiff := 0

/-- `generateLevel(currentScore)` from the source: picks a base color,
computes the new difficulty, stores it in `difficulty` and `lastDiff`,
builds the new grid and stores the target index. -/
noncomputable def generateLevel (currentScore : ℕ) (ρ : Draws) (st : GameState) : GameState :=
  { st with
    difficulty := nextDelta currentScore
    lastDiff := nextDelta currentScore
    grid := buildGrid (generateColor ρ.rh ρ.rs ρ.rl) (nextDelta currentScore)
      (targetIdxOf ρ.rIdx) ρ.rDir
    targetIndex := (targetIdxOf ρ.rIdx : ℤ) }

/-- `startGame` from the source: score 0, full time, active, not game over,
then `generateLevel(0)`. -/
noncomputable def startGame (ρ : Draws) (st : GameState) : GameState :=
  generateLevel 0 ρ
    { st with score := 0, timeLeft := INITIAL_TIME, isActive := true, isGameOver := false }

/-- `handleBlockClick(index)` from the source: early return unless active
and not game over; on the target index, increment the score and generate a
new level from the new score; otherwise `timeLeft := max(0, timeLeft - 3)`.
(The confetti call on a score multiple of 10 is presentation-only.) -/
noncomputable def handleBlockClick (index : ℤ) (ρ : Draws) (st : GameState) : GameState :=
  if st.isActive = false ∨ st.isGameOver = true then st
  else if index = st.targetIndex then
    generateLevel (st.score + 1) ρ { st with score := st.score + 1 }
  else
    { st with timeLeft := max 0 (st.timeLeft - 3) }

/-- One firing of the interval callback installed by the timer effect.  The
effect installs the interval only while `isActive && timeLeft > 0` (its
guard), so a tick can only be delivered under that condition; the callback
itself sets `isActive := false`, `isGameOver := true` and returns 0 when the
previous value is `<= 1`, and otherwise returns `prev - 1`. -/
def tick (st : GameState) : GameState :=
  if st.isActive = true ∧ 0 < st.timeLeft then
    if st.timeLeft ≤ 1 then
      { st with isActive := false, isGameOver := true, timeLeft := 0 }
    else
      { st with timeLeft := st.timeLeft - 1 }
  else st

/-- An engine event: a start click, a timer tick, or a tile click.  Events
that consume randomness carry the recorded outcomes. -/
inductive Event where
  | start (ρ : Draws)
  | timerTick
  | click (i : ℤ) (ρ : Draws)

/-- Apply one event to the state. -/
noncomputable def step (e : Event) (st : GameState) : GameState :=
  match e with
  | Event.start ρ => startGame ρ st
  | Event.timerTick => tick st
  | Event.click i ρ => handleBlockClick i ρ st

/-- The state after a sequence of events from the initial state. -/
noncomputable def run (evs : List Event) : GameState :=
  evs.foldl (fun st e => step e st) initialState

/-- An event is valid when the random outcomes it carries are genuine
`Math.random()` outcomes, i.e. lie in `[0,1)`. -/
def Event.Valid : Event → Prop
  | Event.start ρ => ρ.Valid
  | Event.timerTick => True
  | Event.click _ ρ => ρ.Valid

/-- Well-formedness of a state: whenever the session is active it is not
game over, and the target index is a genuine grid index. -/
def WF (st : GameState) : Prop :=
  st.isActive = true →
    st.isGameOver = false ∧ 0 ≤ st.targetIndex ∧ st.targetIndex < 25

/-! ## Basic facts about the difficulty formula -/

lemma nextDelta_lower (s : ℕ) : MIN_DIFF ≤ nextDelta s := le_max_left _ _

lemma nextDelta_upper (s : ℕ) : nextDelta s ≤ INITIAL_DIFF := by
  apply max_le
  · norm_num [MIN_DIFF, INITIAL_DIFF]
  · have hlog : (0 : ℝ) ≤ Real.logb 2 ((s : ℝ) + 1) :=
      Real.logb_nonneg one_lt_two (by linarith [(Nat.cast_nonneg s : (0 : ℝ) ≤ (s : ℝ))])
    nlinarith

lemma nextDelta_zero : nextDelta 0 = INITIAL_DIFF := by
  unfold nextDelta
  rw [show (((0 : ℕ) : ℝ) + 1) = 1 by norm_num, Real.logb_one, zero_mul, sub_zero,
    max_eq_right (by norm_num [MIN_DIFF, INITIAL_DIFF])]

lemma nextDelta_antitone {s1 s2 : ℕ} (h : s1 ≤ s2) : nextDelta s2 ≤ nextDelta s1 := by
  apply max_le_max le_rfl
  apply sub_le_sub_left
  apply mul_le_mul_of_nonneg_right _ (by norm_num : (0 : ℝ) ≤ 3.5)
  apply Real.logb_le_logb_of_le one_lt_two
  · positivity
  · have hc : (s1 : ℝ) ≤ (s2 : ℝ) := by exact_mod_cast h
    linarith

/-! ## Basic facts about floors of random outcomes -/

lemma floor40_bounds {r : ℚ} (h : unitRange r) : 0 ≤ ⌊r * 40⌋ ∧ ⌊r * 40⌋ ≤ 39 := by
  obtain ⟨h0, h1⟩ := h
  refine ⟨Int.floor_nonneg.2 (by positivity), ?_⟩
  have : ⌊r * 40⌋ < 40 := Int.floor_lt.2 (by push_cast; nlinarith)
  omega

lemma floor360_bounds {r : ℚ} (h : unitRange r) : 0 ≤ ⌊r * 360⌋ ∧ ⌊r * 360⌋ ≤ 359 := by
  obtain ⟨h0, h1⟩ := h
  refine ⟨Int.floor_nonneg.2 (by positivity), ?_⟩
  have : ⌊r * 360⌋ < 360 := Int.floor_lt.2 (by push_cast; nlinarith)
  omega

lemma generateColor_l_mem (r1 r2 r3 : ℚ) (h : unitRange r3) :
    (30 : ℝ) ≤ (generateColor r1 r2 r3).l ∧ (generateColor r1 r2 r3).l ≤ 69 := by
  obtain ⟨hf0, hf1⟩ := floor40_bounds h
  simp only [generateColor]
  constructor
  · exact_mod_cast (by omega : (30 : ℤ) ≤ 30 + ⌊r3 * 40⌋)
  · exact_mod_cast (by omega : 30 + ⌊r3 * 40⌋ ≤ (69 : ℤ))

lemma targetIdxOf_lt (rIdx : ℚ) (h : unitRange rIdx) : targetIdxOf rIdx < 25 := by
  obtain ⟨h0, h1⟩ := h
  have hfl : ⌊rIdx * ((GRID_SIZE * GRID_SIZE : ℕ) : ℚ)⌋ < 25 := by
    apply Int.floor_lt.2
    norm_num [GRID_SIZE]
    nlinarith
  unfold targetIdxOf
  omega

/-! ## Clamping -/

lemma clamp_of_mem {x : ℝ} (h0 : 0 ≤ x) (h1 : x ≤ 100) : max 0 (min 100 x) = x := by
  rw [min_eq_right h1, max_eq_right h0]

lemma getTargetColor_l (base : ColorHSL) (diff : ℝ) (rDir : ℚ) :
    (getTargetColor base diff rDir).l = max 0 (min 100 (base.l + diff)) ∨
      (getTargetColor base diff rDir).l = max 0 (min 100 (base.l - diff)) := by
  simp only [getTargetColor]
  by_cases hd : (1 / 2 : ℚ) < rDir
  · left
    rw [if_pos hd, mul_one]
  · right
    rw [if_neg hd, mul_neg_one, ← sub_eq_add_neg]

lemma clamp_shift_up_ne {L d : ℝ} (h0 : 0 < L) (h1 : L < 100) (hd : 0 < d) :
    max 0 (min 100 (L + d)) ≠ L := by
  rcases le_or_lt (L + d) 100 with h | h
  · rw [min_eq_right h, max_eq_right (by linarith)]
    intro hc
    linarith
  · rw [min_eq_left h.le, max_eq_right (by norm_num)]
    intro hc
    linarith

lemma clamp_shift_down_ne {L d : ℝ} (h0 : 0 < L) (h1 : L < 100) (hd : 0 < d) :
    max 0 (min 100 (L - d)) ≠ L := by
  rcases le_or_lt 0 (L - d) with h | h
  · rw [min_eq_right (by linarith), max_eq_right h]
    intro hc
    linarith
  · rw [min_eq_right (by linarith), max_eq_left h.le]
    intro hc
    linarith

/-- Claim C4: for every integer score ≥ 0,
`nextDelta(score) = max(1.5, 20 − 3.5·log2(score + 1))` satisfies
`MIN_DELTA = 1.5 ≤ nextDelta(score) ≤ INITIAL_DELTA = 20`, and
`nextDelta(0) = 20`. -/
theorem claim_C4_nextDelta_bounds :
    MIN_DIFF = 1.5 ∧ INITIAL_DIFF = 20 ∧
    (∀ score : ℕ, MIN_DIFF ≤ nextDelta score ∧ nextDelta score ≤ INITIAL_DIFF) ∧
    nextDelta 0 = INITIAL_DIFF :=
  ⟨rfl, rfl, fun s => ⟨nextDelta_lower s, nextDelta_upper s⟩, nextDelta_zero⟩

/-- Claim C5: for all integers score2 > score1 ≥ 0,
`nextDelta(score2) ≤ nextDelta(score1)`: the per-level lightness delta is
monotonically non-increasing in cumulative score. -/
theorem claim_C5_nextDelta_monotone (score1 score2 : ℕ) (h : score1 < score2) :
    nextDelta score2 ≤ nextDelta score1 :=
  nextDelta_antitone h.le

/-- Witness for claim C5 at score1 = 0, score2 = 1. -/
theorem claim_C5_witness : nextDelta 1 ≤ nextDelta 0 :=
  claim_C5_nextDelta_monotone 0 1 (by norm_num)

/-- Claim C6: `getTargetColor(base, delta)` (the spec's
`deriveShiftedColor`) leaves hue and saturation exactly equal to those of
`base` and sets lightness to `clamp(base.lightness ± delta, 0, 100)` with
the sign chosen by the random draw (`+` when the draw exceeds 1/2, `−`
otherwise); both signs are attainable by draws in [0,1), and no
renormalization is applied beyond the clamp. -/
theorem claim_C6_shifted_color (base : ColorHSL) (diff : ℝ) (rDir : ℚ) :
    (getTargetColor base diff rDir).h = base.h ∧
    (getTargetColor base diff rDir).s = base.s ∧
    ((1 / 2 : ℚ) < rDir →
      (getTargetColor base diff rDir).l = max 0 (min 100 (base.l + diff))) ∧
    (rDir ≤ (1 / 2 : ℚ) →
      (getTargetColor base diff rDir).l = max 0 (min 100 (base.l - diff))) ∧
    (∃ r : ℚ, unitRange r ∧
      (getTargetColor base diff r).l = max 0 (min 100 (base.l + diff))) ∧
    (∃ r : ℚ, unitRange r ∧
      (getTargetColor base diff r).l = max 0 (min 100 (base.l - diff))) := by
  refine ⟨rfl, rfl, ?_, ?_, ⟨3 / 4, by norm_num [unitRange], ?_⟩,
    ⟨0, by norm_num [unitRange], ?_⟩⟩
  · intro hgt
    simp only [getTargetColor]
    rw [if_pos hgt, mul_one]
  · intro hle
    simp only [getTargetColor]
    rw [if_neg (not_lt.2 hle), mul_neg_one, ← sub_eq_add_neg]
  · simp only [getTargetColor]
    rw [if_pos (by norm_num), mul_one]
  · simp only [getTargetColor]
    rw [if_neg (by norm_num), mul_neg_one, ← sub_eq_add_neg]

/-- Witness for claim C6 at base = (0,40,30), delta = 20, draw 3/4 (which
picks the + sign). -/
theorem claim_C6_witness :
    (getTargetColor ⟨0, 40, 30⟩ 20 (3 / 4)).l =
      max 0 (min 100 ((⟨0, 40, 30⟩ : ColorHSL).l + 20)) :=
  (claim_C6_shifted_color ⟨0, 40, 30⟩ 20 (3 / 4)).2.2.1 (by norm_num)

/-- Counterexample to claim C8 as stated: the claim asserts every value of
the interval [40,80] is a possible saturation output, but saturation 80 is
not attainable — `40 + floor(r·40)` is at most 79 for r in [0,1). -/
theorem claim_C8_counterexample :
    ¬ ∃ r1 r2 r3 : ℚ, unitRange r1 ∧ unitRange r2 ∧ unitRange r3 ∧
        (generateColor r1 r2 r3).s = 80 := by
  rintro ⟨r1, r2, r3, _, h2, _, hs⟩
  simp only [generateColor] at hs
  have hz : (40 + ⌊r2 * 40⌋ : ℤ) = 80 := by exact_mod_cast hs
  have h39 := (floor40_bounds h2).2
  omega

/-- Claim C8, amended: every Color returned by `generateColor` has integer
components, with hue in {0,…,359} ⊆ [0,360), saturation in {40,…,79} (not
all of [40,80]) and lightness in {30,…,69} (not all of [30,70]); and every
integer triple in those ranges is a possible output for some outcome of the
random source. -/
theorem claim_C8_generateColor_ranges :
    (∀ r1 r2 r3 : ℚ, unitRange r1 → unitRange r2 → unitRange r3 →
      ∃ hi si li : ℤ,
        generateColor r1 r2 r3 = ⟨(hi : ℝ), (si : ℝ), (li : ℝ)⟩ ∧
        0 ≤ hi ∧ hi ≤ 359 ∧ 40 ≤ si ∧ si ≤ 79 ∧ 30 ≤ li ∧ li ≤ 69) ∧
    (∀ hi si li : ℤ, 0 ≤ hi → hi ≤ 359 → 40 ≤ si → si ≤ 79 → 30 ≤ li → li ≤ 69 →
      ∃ r1 r2 r3 : ℚ, unitRange r1 ∧ unitRange r2 ∧ unitRange r3 ∧
        generateColor r1 r2 r3 = ⟨(hi : ℝ), (si : ℝ), (li : ℝ)⟩) := by
  constructor
  · intro r1 r2 r3 h1 h2 h3
    obtain ⟨ha0, ha1⟩ := floor360_bounds h1
    obtain ⟨hb0, hb1⟩ := floor40_bounds h2
    obtain ⟨hc0, hc1⟩ := floor40_bounds h3
    exact ⟨⌊r1 * 360⌋, 40 + ⌊r2 * 40⌋, 30 + ⌊r3 * 40⌋, rfl,
      ha0, by omega, by omega, by omega, by omega, by omega⟩
  · intro hi si li h0 h1 h2 h3 h4 h5
    refine ⟨(hi : ℚ) / 360, ((si : ℚ) - 40) / 40, ((li : ℚ) - 30) / 40, ?_, ?_, ?_, ?_⟩
    · constructor
      · apply div_nonneg _ (by norm_num)
        exact_mod_cast h0
      · rw [div_lt_one (by norm_num)]
        exact_mod_cast (by omega : hi < 360)
    · constructor
      · apply div_nonneg _ (by norm_num)
        have : (40 : ℚ) ≤ (si : ℚ) := by exact_mod_cast h2
        linarith
      · rw [div_lt_one (by norm_num)]
        have : (si : ℚ) < 80 := by exact_mod_cast (by omega : si < 80)
        linarith
    · constructor
      · apply div_nonneg _ (by norm_num)
        have : (30 : ℚ) ≤ (li : ℚ) := by exact_mod_cast h4
        linarith
      · rw [div_lt_one (by norm_num)]
        have : (li : ℚ) < 70 := by exact_mod_cast (by omega : li < 70)
        linarith
    · have e1 : ⌊(hi : ℚ) / 360 * 360⌋ = hi := by
        rw [div_mul_cancel₀ _ (by norm_num : (360 : ℚ) ≠ 0), Int.floor_intCast]
      have e2 : ⌊((si : ℚ) - 40) / 40 * 40⌋ = si - 40 := by
        rw [div_mul_cancel₀ _ (by norm_num : (40 : ℚ) ≠ 0),
          show ((si : ℚ) - 40) = ((si - 40 : ℤ) : ℚ) by push_cast; ring, Int.floor_intCast]
      have e3 : ⌊((li : ℚ) - 30) / 40 * 40⌋ = li - 30 := by
        rw [div_mul_cancel₀ _ (by norm_num : (40 : ℚ) ≠ 0),
          show ((li : ℚ) - 30) = ((li - 30 : ℤ) : ℚ) by push_cast; ring, Int.floor_intCast]
      simp only [generateColor, e1, e2, e3]
      apply ColorHSL.ext <;> push_cast <;> ring

/-- Witness for the amended claim C8: the forward direction at the all-zero
draws, and the attainability direction at the triple (0, 40, 30). -/
theorem claim_C8_witness :
    (∃ hi si li : ℤ,
      generateColor 0 0 0 = ⟨(hi : ℝ), (si : ℝ), (li : ℝ)⟩ ∧
      0 ≤ hi ∧ hi ≤ 359 ∧ 40 ≤ si ∧ si ≤ 79 ∧ 30 ≤ li ∧ li ≤ 69) ∧
    (∃ r1 r2 r3 : ℚ, unitRange r1 ∧ unitRange r2 ∧ unitRange r3 ∧
      generateColor r1 r2 r3 = ⟨((0 : ℤ) : ℝ), ((40 : ℤ) : ℝ), ((30 : ℤ) : ℝ)⟩) :=
  ⟨claim_C8_generateColor_ranges.1 0 0 0 (by norm_num [unitRange])
      (by norm_num [unitRange]) (by norm_num [unitRange]),
    claim_C8_generateColor_ranges.2 0 40 30 (by norm_num) (by norm_num) (by norm_num)
      (by norm_num) (by norm_num) (by norm_num)⟩

/-- Claim C9: for every base Color produced by `generateColor` (lightness an
integer between 30 and 69) and every delta produced by the difficulty
formula (1.5 ≤ delta ≤ 20), the clamp to [0,100] inside `getTargetColor`
never binds: the shifted tile's lightness differs from the base lightness by
exactly the delta, and in particular never equals the base lightness. -/
theorem claim_C9_no_clamp (score : ℕ) (r1 r2 r3 rDir : ℚ) (h3 : unitRange r3) :
    ((getTargetColor (generateColor r1 r2 r3) (nextDelta score) rDir).l =
        (generateColor r1 r2 r3).l + nextDelta score ∨
      (getTargetColor (generateColor r1 r2 r3) (nextDelta score) rDir).l =
        (generateColor r1 r2 r3).l - nextDelta score) ∧
    (getTargetColor (generateColor r1 r2 r3) (nextDelta score) rDir).l ≠
      (generateColor r1 r2 r3).l := by
  obtain ⟨hL0, hL1⟩ := generateColor_l_mem r1 r2 r3 h3
  have hd0 : (1.5 : ℝ) ≤ nextDelta score := by
    have := nextDelta_lower score
    rwa [MIN_DIFF] at this
  have hd1 : nextDelta score ≤ 20 := by
    have := nextDelta_upper score
    rwa [INITIAL_DIFF] at this
  rcases getTargetColor_l (generateColor r1 r2 r3) (nextDelta score) rDir with h | h
  · rw [h, clamp_of_mem (by linarith) (by linarith)]
    exact ⟨Or.inl rfl, by intro hc; linarith⟩
  · rw [h, clamp_of_mem (by linarith) (by linarith)]
    exact ⟨Or.inr rfl, by intro hc; linarith⟩

/-- Witness for claim C9 at score 0 and all-zero draws. -/
theorem claim_C9_witness :
    ((getTargetColor (generateColor 0 0 0) (nextDelta 0) 0).l =
        (generateColor 0 0 0).l + nextDelta 0 ∨
      (getTargetColor (generateColor 0 0 0) (nextDelta 0) 0).l =
        (generateColor 0 0 0).l - nextDelta 0) ∧
    (getTargetColor (generateColor 0 0 0) (nextDelta 0) 0).l ≠
      (generateColor 0 0 0).l :=
  claim_C9_no_clamp 0 0 0 0 0 (by norm_num [unitRange])

/-! ## The generated level -/

lemma buildGrid_length (b : ColorHSL) (d : ℝ) (i : ℕ) (r : ℚ) :
    (buildGrid b d i r).length = 25 := by
  simp [buildGrid, GRID_SIZE]

/-- Claim C3: for every delta > 0 and every outcome of the random choices,
the level built by `generateLevel` has exactly 25 cells; the cell at the
target index — which lies in [0,25) — differs from the base Color, and only
in lightness; the other 24 cells equal the base Color exactly. -/
theorem claim_C3_level_shape (delta : ℝ) (r1 r2 r3 rIdx rDir : ℚ)
    (hdelta : 0 < delta) (h3 : unitRange r3) (hIdx : unitRange rIdx) :
    (buildGrid (generateColor r1 r2 r3) delta (targetIdxOf rIdx) rDir).length = 25 ∧
    targetIdxOf rIdx < 25 ∧
    (buildGrid (generateColor r1 r2 r3) delta (targetIdxOf rIdx) rDir)[targetIdxOf rIdx]? =
      some (getTargetColor (generateColor r1 r2 r3) delta rDir) ∧
    (∀ j : ℕ, j < 25 → j ≠ targetIdxOf rIdx →
      (buildGrid (generateColor r1 r2 r3) delta (targetIdxOf rIdx) rDir)[j]? =
        some (generateColor r1 r2 r3)) ∧
    (getTargetColor (generateColor r1 r2 r3) delta rDir).h = (generateColor r1 r2 r3).h ∧
    (getTargetColor (generateColor r1 r2 r3) delta rDir).s = (generateColor r1 r2 r3).s ∧
    (getTargetColor (generateColor r1 r2 r3) delta rDir).l ≠ (generateColor r1 r2 r3).l := by
  have hlt := targetIdxOf_lt rIdx hIdx
  obtain ⟨hL0, hL1⟩ := generateColor_l_mem r1 r2 r3 h3
  refine ⟨buildGrid_length _ _ _ _, hlt, ?_, ?_, rfl, rfl, ?_⟩
  · unfold buildGrid
    rw [List.getElem?_set_self]
    rw [List.length_replicate]
    norm_num [GRID_SIZE]
    omega
  · intro j hj hne
    unfold buildGrid
    rw [List.getElem?_set_ne (fun hc => hne hc.symm)]
    rw [List.getElem?_replicate_of_lt]
    norm_num [GRID_SIZE]
    omega
  · rcases getTargetColor_l (generateColor r1 r2 r3) delta rDir with h | h <;> rw [h]
    · exact clamp_shift_up_ne (by linarith) (by linarith) hdelta
    · exact clamp_shift_down_ne (by linarith) (by linarith) hdelta

/-- Witness for claim C3 at delta = 20 and all-zero draws (target index 0). -/
theorem claim_C3_witness :
    (buildGrid (generateColor 0 0 0) 20 (targetIdxOf 0) 0).length = 25 ∧
    targetIdxOf 0 < 25 ∧
    (buildGrid (generateColor 0 0 0) 20 (targetIdxOf 0) 0)[targetIdxOf 0]? =
      some (getTargetColor (generateColor 0 0 0) 20 0) ∧
    (∀ j : ℕ, j < 25 → j ≠ targetIdxOf 0 →
      (buildGrid (generateColor 0 0 0) 20 (targetIdxOf 0) 0)[j]? =
        some (generateColor 0 0 0)) ∧
    (getTargetColor (generateColor 0 0 0) 20 0).h = (generateColor 0 0 0).h ∧
    (getTargetColor (generateColor 0 0 0) 20 0).s = (generateColor 0 0 0).s ∧
    (getTargetColor (generateColor 0 0 0) 20 0).l ≠ (generateColor 0 0 0).l :=
  claim_C3_level_shape 20 0 0 0 0 0 (by norm_num) (by norm_num [unitRange])
    (by norm_num [unitRange])

/-! ## State-machine helper lemmas -/

lemma handleBlockClick_noop {st : GameState} (i : ℤ) (ρ : Draws)
    (h : st.isActive = false ∨ st.isGameOver = true) :
    handleBlockClick i ρ st = st := by
  unfold handleBlockClick
  rw [if_pos h]

lemma handleBlockClick_wrong {st : GameState} (i : ℤ) (ρ : Draws)
    (ha : st.isActive = true) (ho : st.isGameOver = false) (hi : i ≠ st.targetIndex) :
    handleBlockClick i ρ st = { st with timeLeft := max 0 (st.timeLeft - 3) } := by
  unfold handleBlockClick
  rw [if_neg (by simp [ha, ho]), if_neg hi]

lemma handleBlockClick_correct {st : GameState} (ρ : Draws)
    (ha : st.isActive = true) (ho : st.isGameOver = false) :
    handleBlockClick st.targetIndex ρ st =
      generateLevel (st.score + 1) ρ { st with score := st.score + 1 } := by
  unfold handleBlockClick
  rw [if_neg (by simp [ha, ho]), if_pos rfl]

lemma tick_noop {st : GameState} (h : st.isActive = false) : tick st = st := by
  unfold tick
  rw [if_neg (by simp [h])]

lemma tick_noop_time {st : GameState} (h : st.timeLeft ≤ 0) : tick st = st := by
  unfold tick
  rw [if_neg (by intro hc; omega)]

lemma tick_to_over {st : GameState} (ha : st.isActive = true)
    (h0 : 0 < st.timeLeft) (h1 : st.timeLeft ≤ 1) :
    tick st = { st with isActive := false, isGameOver := true, timeLeft := 0 } := by
  unfold tick
  rw [if_pos ⟨ha, h0⟩, if_pos h1]

lemma tick_dec {st : GameState} (ha : st.isActive = true) (h : 1 < st.timeLeft) :
    tick st = { st with timeLeft := st.timeLeft - 1 } := by
  unfold tick
  rw [if_pos ⟨ha, by omega⟩, if_neg (by omega)]

lemma tick_iter (n : ℕ) (st : GameState) (ha : st.isActive = true)
    (h : (n : ℤ) < st.timeLeft) :
    tick^[n] st = { st with timeLeft := st.timeLeft - n } := by
  induction n generalizing st with
  | zero =>
    simp only [Function.iterate_zero, id_eq, Nat.cast_zero, sub_zero]
  | succ n ih =>
    rw [Function.iterate_succ_apply]
    have hgt : 1 < st.timeLeft := by
      push_cast at h
      omega
    rw [tick_dec ha hgt]
    rw [ih { st with timeLeft := st.timeLeft - 1 } ha (by push_cast at h ⊢; omega)]
    have hval : st.timeLeft - 1 - (n : ℤ) = st.timeLeft - ((n + 1 : ℕ) : ℤ) := by
      push_cast
      ring
    simp only [hval]

/-! ## The start state on concrete draws -/

/-- The all-zero random draws: base color (0,40,30), target index 0, shift
direction −1. -/
def draws0 : Draws := ⟨0, 0, 0, 0, 0⟩

lemma targetIdxOf_zero : targetIdxOf 0 = 0 := by
  simp [targetIdxOf]

lemma startGame_isActive (ρ : Draws) (st : GameState) : (startGame ρ st).isActive = true := by
  simp [startGame, generateLevel]

lemma startGame_isGameOver (ρ : Draws) (st : GameState) :
    (startGame ρ st).isGameOver = false := by
  simp [startGame, generateLevel]

lemma startGame_timeLeft (ρ : Draws) (st : GameState) :
    (startGame ρ st).timeLeft = INITIAL_TIME := by
  simp [startGame, generateLevel]

lemma startGame_score (ρ : Draws) (st : GameState) : (startGame ρ st).score = 0 := by
  simp [startGame, generateLevel]

lemma startGame_targetIndex (ρ : Draws) (st : GameState) :
    (startGame ρ st).targetIndex = (targetIdxOf ρ.rIdx : ℤ) := by
  simp [startGame, generateLevel]

lemma startGame_grid (ρ : Draws) (st : GameState) :
    (startGame ρ st).grid =
      buildGrid (generateColor ρ.rh ρ.rs ρ.rl) (nextDelta 0) (targetIdxOf ρ.rIdx) ρ.rDir := by
  simp [startGame, generateLevel]

/-! ## Concrete states used by the state-machine claims -/

/-- The state reached from the initial state by `startGame` on the all-zero
draws followed by 58 timer ticks: an active session with 2 seconds left. -/
noncomputable def stRun : GameState := tick^[58] (startGame draws0 initialState)

/-- The state after clicking the non-target tile 1 in `stRun`. -/
noncomputable def stAfterMiss : GameState := handleBlockClick 1 draws0 stRun

/-- A plain active state with 60 seconds left, used to instantiate
hypotheses of the general theorems. -/
noncomputable def stActive : GameState where
  score := 0
  timeLeft := 60
  isActive := true
  isGameOver := false
  grid := []
  targetIndex := 0
  difficulty := 20
  lastDiff := 20

/-- Claim C1, evaluated on the code at the failing input: starting from a
fresh session and ticking down to 2 seconds, a click on a non-target index
floors the time at 0, but — contrary to the claim and the spec — the
activity state stays `active`: `isGameOver` is never set on the penalty
path, the stopped timer never flips it later (`tick` is a no-op at time 0),
and the engine even keeps accepting scoring clicks at 0 time.  The session
soft-locks instead of ending. -/
theorem claim_C1_penalty_soft_lock :
    stRun.timeLeft = 2 ∧
    stRun.activityState = ActivityState.active ∧
    stAfterMiss.timeLeft = 0 ∧
    stAfterMiss.isGameOver = false ∧
    stAfterMiss.activityState = ActivityState.active ∧
    tick stAfterMiss = stAfterMiss ∧
    (handleBlockClick 0 draws0 stAfterMiss).score = stAfterMiss.score + 1 := by
  have h0a := startGame_isActive draws0 initialState
  have h0o := startGame_isGameOver draws0 initialState
  have h0t := startGame_timeLeft draws0 initialState
  have h0i : (startGame draws0 initialState).targetIndex = 0 := by
    rw [startGame_targetIndex]
    norm_num [draws0, targetIdxOf_zero]
  have hrun : stRun = { startGame draws0 initialState with
      timeLeft := (startGame draws0 initialState).timeLeft - ((58 : ℕ) : ℤ) } := by
    unfold stRun
    exact tick_iter 58 _ h0a (by rw [h0t]; norm_num [INITIAL_TIME])
  have hT : stRun.timeLeft = 2 := by
    rw [hrun]
    show (startGame draws0 initialState).timeLeft - ((58 : ℕ) : ℤ) = 2
    rw [h0t]
    norm_num [INITIAL_TIME]
  have hA : stRun.isActive = true := by rw [hrun]; exact h0a
  have hO : stRun.isGameOver = false := by rw [hrun]; exact h0o
  have hI : stRun.targetIndex = 0 := by rw [hrun]; exact h0i
  have hS : stRun.score = 0 := by rw [hrun]; exact startGame_score draws0 initialState
  have hMiss : stAfterMiss = { stRun with timeLeft := max 0 (stRun.timeLeft - 3) } := by
    unfold stAfterMiss
    exact handleBlockClick_wrong 1 draws0 hA hO (by rw [hI]; norm_num)
  have hMT : stAfterMiss.timeLeft = 0 := by
    rw [hMiss]
    show max 0 (stRun.timeLeft - 3) = 0
    rw [hT]
    decide
  have hMA : stAfterMiss.isActive = true := by simp only [hMiss, hA]
  have hMO : stAfterMiss.isGameOver = false := by simp only [hMiss, hO]
  have hMI : stAfterMiss.targetIndex = 0 := by simp only [hMiss, hI]
  refine ⟨hT, ?_, hMT, hMO, ?_, ?_, ?_⟩
  · simp [GameState.activityState, hA, hO]
  · simp [GameState.activityState, hMA, hMO]
  · exact tick_noop_time (le_of_eq hMT)
  · have hc := handleBlockClick_correct draws0 hMA hMO
    rw [hMI] at hc
    rw [hc]
    rfl

/-- Counterexample to claim C2 as stated: in a freshly started session
(time 60, target index 0), the out-of-range click `click(25)` is NOT a
no-op — it is treated as an incorrect click and costs 3 seconds. -/
theorem claim_C2_counterexample :
    (startGame draws0 initialState).timeLeft = 60 ∧
    (handleBlockClick 25 draws0 (startGame draws0 initialState)).timeLeft = 57 := by
  have h0a := startGame_isActive draws0 initialState
  have h0o := startGame_isGameOver draws0 initialState
  have h0t := startGame_timeLeft draws0 initialState
  have h0i : (startGame draws0 initialState).targetIndex = 0 := by
    rw [startGame_targetIndex]
    norm_num [draws0, targetIdxOf_zero]
  refine ⟨by rw [h0t]; norm_num [INITIAL_TIME], ?_⟩
  rw [handleBlockClick_wrong 25 draws0 h0a h0o (by rw [h0i]; norm_num)]
  show max 0 ((startGame draws0 initialState).timeLeft - 3) = 57
  rw [h0t]
  decide

/-- Claim C2, amended: a click with index outside [0,25) never raises (all
transformers are total) and leaves score, activity state, grid and target
unchanged, but when the session is active (with a genuine in-range target
index, as in every reachable active state) it behaves like an incorrect
click: time remaining drops by 3, floored at 0.  In idle or game-over
states it is a full no-op. -/
theorem claim_C2_click_out_of_range (st : GameState) (i : ℤ) (ρ : Draws)
    (hRange : i < 0 ∨ 25 ≤ i) :
    (st.isActive = false ∨ st.isGameOver = true → handleBlockClick i ρ st = st) ∧
    (st.isActive = true → st.isGameOver = false →
      0 ≤ st.targetIndex → st.targetIndex < 25 →
      (handleBlockClick i ρ st).timeLeft = max 0 (st.timeLeft - 3) ∧
      (handleBlockClick i ρ st).score = st.score ∧
      (handleBlockClick i ρ st).grid = st.grid ∧
      (handleBlockClick i ρ st).targetIndex = st.targetIndex ∧
      (handleBlockClick i ρ st).isActive = st.isActive ∧
      (handleBlockClick i ρ st).isGameOver = st.isGameOver) := by
  refine ⟨fun h => handleBlockClick_noop i ρ h, ?_⟩
  intro ha ho h0 h25
  have hne : i ≠ st.targetIndex := by omega
  rw [handleBlockClick_wrong i ρ ha ho hne]
  exact ⟨rfl, rfl, rfl, rfl, rfl, rfl⟩

/-- Witness for the amended claim C2 at the concrete active state
`stActive` and the out-of-range index 25. -/
theorem claim_C2_witness :
    (handleBlockClick 25 draws0 stActive).timeLeft = max 0 (stActive.timeLeft - 3) ∧
    (handleBlockClick 25 draws0 stActive).score = stActive.score ∧
    (handleBlockClick 25 draws0 stActive).grid = stActive.grid ∧
    (handleBlockClick 25 draws0 stActive).targetIndex = stActive.targetIndex ∧
    (handleBlockClick 25 draws0 stActive).isActive = stActive.isActive ∧
    (handleBlockClick 25 draws0 stActive).isGameOver = stActive.isGameOver :=
  (claim_C2_click_out_of_range stActive 25 draws0 (Or.inr (by norm_num))).2 rfl rfl
    (by norm_num [stActive]) (by norm_num [stActive])

/-- Claim C7: a tick can only have an effect in the active state (the timer
effect installs no interval otherwise); in an active, not-game-over state
with positive time it decrements time remaining by exactly 1, leaving score
and grid unchanged, and moves to `over` exactly when the result is 0;
concretely, from such a state with 2 seconds left, two ticks reach time 0
and state `over`, and every later tick leaves the state — score, time and
grid included — completely unchanged. -/
theorem claim_C7_tick_spec :
    (∀ st : GameState, st.isActive = false → tick st = st) ∧
    (∀ st : GameState, st.isActive = true → st.isGameOver = false → 0 < st.timeLeft →
      (tick st).timeLeft = st.timeLeft - 1 ∧
      (tick st).score = st.score ∧
      (tick st).grid = st.grid ∧
      ((tick st).timeLeft = 0 → (tick st).activityState = ActivityState.over) ∧
      (0 < (tick st).timeLeft → (tick st).activityState = ActivityState.active)) ∧
    (∀ st : GameState, st.isActive = true → st.isGameOver = false → st.timeLeft = 2 →
      (tick (tick st)).timeLeft = 0 ∧
      (tick (tick st)).activityState = ActivityState.over ∧
      (∀ n : ℕ, tick^[n] (tick (tick st)) = tick (tick st))) := by
  refine ⟨fun st h => tick_noop h, ?_, ?_⟩
  · intro st ha ho h0
    by_cases h1 : st.timeLeft ≤ 1
    · rw [tick_to_over ha h0 h1]
      refine ⟨?_, rfl, rfl, ?_, ?_⟩
      · show (0 : ℤ) = st.timeLeft - 1
        omega
      · intro _
        simp [GameState.activityState]
      · intro hx
        exact absurd hx (lt_irrefl 0)
    · rw [tick_dec ha (by omega)]
      refine ⟨rfl, rfl, rfl, ?_, ?_⟩
      · intro hx
        have : st.timeLeft - 1 = 0 := hx
        omega
      · intro _
        simp [GameState.activityState, ha, ho]
  · intro st ha ho ht2
    have t1 : tick st = { st with timeLeft := st.timeLeft - 1 } := tick_dec ha (by omega)
    have t2 : tick (tick st) =
        { st with isActive := false, isGameOver := true, timeLeft := 0 } := by
      rw [t1]
      exact tick_to_over ha (by show (0 : ℤ) < st.timeLeft - 1; omega)
        (by show st.timeLeft - 1 ≤ 1; omega)
    refine ⟨by rw [t2], by rw [t2]; simp [GameState.activityState], fun n => ?_⟩
    exact Function.iterate_fixed (by rw [t2]; exact tick_noop rfl) n

/-- Witness for claim C7: the active-state conjunct at the concrete state
`stActive` (time 60). -/
theorem claim_C7_witness :
    (tick stActive).timeLeft = stActive.timeLeft - 1 ∧
    (tick stActive).score = stActive.score ∧
    (tick stActive).grid = stActive.grid ∧
    ((tick stActive).timeLeft = 0 → (tick stActive).activityState = ActivityState.over) ∧
    (0 < (tick stActive).timeLeft → (tick stActive).activityState = ActivityState.active) :=
  claim_C7_tick_spec.2.1 stActive rfl rfl (by norm_num [stActive])

/-- Claim C10: before the first start the observable grid is the empty
sequence (length 0) and the target index is −1; every click in this initial
idle state is a no-op; the promised 25-cell grid exists only once a start
event has produced it. -/
theorem claim_C10_pre_start :
    initialState.grid = [] ∧
    initialState.grid.length = 0 ∧
    initialState.targetIndex = -1 ∧
    initialState.activityState = ActivityState.idle ∧
    (∀ i : ℤ, ∀ ρ : Draws, handleBlockClick i ρ initialState = initialState) ∧
    (∀ ρ : Draws, (startGame ρ initialState).grid.length = 25) := by
  refine ⟨rfl, rfl, rfl, ?_, ?_, ?_⟩
  · simp [GameState.activityState, initialState]
  · intro i ρ
    exact handleBlockClick_noop i ρ (Or.inl rfl)
  · intro ρ
    rw [startGame_grid]
    exact buildGrid_length _ _ _ _

/-! ## Reachable states are well-formed

These supporting theorems justify the hypotheses of the general claim
theorems above: every state reachable from the initial state by valid
events is active only while not game over, and then carries an in-range
target index. -/

lemma WF_startGame (ρ : Draws) (st : GameState) (hv : ρ.Valid) : WF (startGame ρ st) := by
  intro _
  refine ⟨startGame_isGameOver ρ st, ?_, ?_⟩
  · rw [startGame_targetIndex]
    exact Int.natCast_nonneg _
  · rw [startGame_targetIndex]
    exact_mod_cast targetIdxOf_lt ρ.rIdx hv.2.2.2.1

lemma WF_tick {st : GameState} (h : WF st) : WF (tick st) := by
  unfold tick
  split_ifs with h1 h2
  · intro hx
    exact absurd hx (by simp)
  · intro hx
    exact h hx
  · exact h

lemma generateLevel_isGameOver (n : ℕ) (ρ : Draws) (st : GameState) :
    (generateLevel n ρ st).isGameOver = st.isGameOver := by
  simp [generateLevel]

lemma generateLevel_targetIndex (n : ℕ) (ρ : Draws) (st : GameState) :
    (generateLevel n ρ st).targetIndex = (targetIdxOf ρ.rIdx : ℤ) := by
  simp [generateLevel]

lemma WF_click (i : ℤ) (ρ : Draws) {st : GameState} (hv : ρ.Valid) (h : WF st) :
    WF (handleBlockClick i ρ st) := by
  unfold handleBlockClick
  split_ifs with h1 h2
  · exact h
  · intro _
    push_neg at h1
    have ho : st.isGameOver = false := by
      revert h1
      cases st.isGameOver <;> simp
    refine ⟨?_, ?_, ?_⟩
    · rw [generateLevel_isGameOver]
      exact ho
    · rw [generateLevel_targetIndex]
      exact Int.natCast_nonneg _
    · rw [generateLevel_targetIndex]
      exact_mod_cast targetIdxOf_lt ρ.rIdx hv.2.2.2.1
  · intro hx
    exact h hx

theorem step_preserves_WF (e : Event) (st : GameState) (hv : e.Valid) (h : WF st) :
    WF (step e st) := by
  cases e with
  | start ρ => exact WF_startGame ρ st hv
  | timerTick => exact WF_tick h
  | click i ρ => exact WF_click i ρ hv h

lemma WF_initialState : WF initialState := by
  intro hx
  exact absurd hx (by simp [initialState])

lemma foldl_WF (l : List Event) (st : GameState) (h : WF st) (hv : ∀ e ∈ l, e.Valid) :
    WF (l.foldl (fun st e => step e st) st) := by
  induction l generalizing st with
  | nil => exact h
  | cons e l ih =>
    rw [List.foldl_cons]
    exact ih (step e st) (step_preserves_WF e st (hv e (List.mem_cons_self e l)) h)
      (fun x hx => hv x (List.mem_cons_of_mem e hx))

/-- Every state reachable from the initial state by valid events is
well-formed: when active it is not game over and its target index lies in
[0,25). -/
theorem run_WF (evs : List Event) (hv : ∀ e ∈ evs, e.Valid) : WF (run evs) :=
  foldl_WF evs initialState WF_initialState hv
